import Mathlib

/-
Verification of the PHARE fluid particle initializer
(src/core/data/ions/particle_initializers/fluid_particle_initializer.h).

Modelling conventions of this shallow embedding:
* C++ doubles and floats are modelled as rationals; arithmetic on them is exact.
* std::mt19937_64 is modelled abstractly as a pair (seed, position): the engine
  determines a stream of values from its seed, and each draw advances the
  position by one.  The stream of uniform values produced by
  std::uniform_real_distribution over the engine is an abstract parameter
  u : seed -> position -> rational; one float draw consumes one position.
* The bodies of maxwellianVelocity, basisTransform and localMagneticBasis are
  declared in the header but defined in a translation unit that is not part of
  the sources; those three are modelled from the specification (see their
  doc comments).  Everything else is translated directly from the header.
* std::unique_ptr members are modelled as the held value; the nullable
  magneticField member is an Option.
-/

namespace PHARE

/-- std::array of 3 doubles (velocities, thermal speeds, field vectors). -/
structure Vec3 where
  x : ℚ
  y : ℚ
  z : ℚ
deriving DecidableEq

def Vec3.zero : Vec3 := { x := 0, y := 0, z := 0 }

def Vec3.add (a b : Vec3) : Vec3 := { x := a.x + b.x, y := a.y + b.y, z := a.z + b.z }

def Vec3.sub (a b : Vec3) : Vec3 := { x := a.x - b.x, y := a.y - b.y, z := a.z - b.z }

def Vec3.smul (c : ℚ) (a : Vec3) : Vec3 := { x := c * a.x, y := c * a.y, z := c * a.z }

def Vec3.dot (a b : Vec3) : ℚ := a.x * b.x + a.y * b.y + a.z * b.z

def Vec3.cross (a b : Vec3) : Vec3 :=
  { x := a.y * b.z - a.z * b.y
  , y := a.z * b.x - a.x * b.z
  , z := a.x * b.y - a.y * b.x }

/-- squared Euclidean norm of a 3-vector. -/
def normSq (a : Vec3) : ℚ := a.x * a.x + a.y * a.y + a.z * a.z

/-- a Point from utilities/point; layout.origin() has x, y, z members. -/
structure Point3 where
  x : ℚ
  y : ℚ
  z : ℚ
deriving DecidableEq

/-- the Basis enumeration: Cartesian or Magnetic (field-aligned). -/
inductive Basis where
  | Cartesian
  | Magnetic
deriving DecidableEq

/-- abstract state of a std::mt19937_64: its seed and how many values it has
produced so far.  Copying the structure models C++ pass-by-value. -/
structure Gen where
  seed : ℕ
  pos : ℕ
deriving DecidableEq

/-- Modelled from the spec: maxwellianVelocity is declared in the header
(line 18) but its body lives outside the given sources.  Spec 4.1: each
component of the result is V_i + Vth_i * xi_i where the xi_i are
standard-normal deviates obtained by a Box-Muller transform of uniform draws
taken from the generator, which is received by value (so the caller's engine
never advances).  The deviates are abstracted as a stream
xi : seed -> position -> Vec3 of the generator state the callee starts from;
the per-axis scale-and-shift is explicit, so Vth_i = 0 yields exactly V_i. -/
def maxwellianVelocity (xi : ℕ → ℕ → Vec3) (V Vth : Vec3) (generator : Gen) : Vec3 :=
  { x := V.x + Vth.x * (xi generator.seed generator.pos).x
  , y := V.y + Vth.y * (xi generator.seed generator.pos).y
  , z := V.z + Vth.z * (xi generator.seed generator.pos).z }

/-- std::array<std::array<double,3>,3>: the local basis rows e1, e2, e3. -/
structure Basis3 where
  e1 : Vec3
  e2 : Vec3
  e3 : Vec3
deriving DecidableEq

/-- the Cartesian (identity) basis. -/
def idBasis : Basis3 := { e1 := ⟨1, 0, 0⟩, e2 := ⟨0, 1, 0⟩, e3 := ⟨0, 0, 1⟩ }

/-- Modelled from the spec: the small tolerance under which a magnetic-field
magnitude is considered degenerate (spec 4.2 names no value; a fixed small
constant is used). -/
def fieldTolerance : ℚ := 1 / 1000000

/-- Modelled from the spec: localMagneticBasis is declared in the header
(line 25) but its body lives outside the given sources.  Spec 4.2: e1 is
B normalised; e2 comes from the Cartesian axis with the smallest component
magnitude in e1, projected orthogonal to e1 and normalised; e3 = e1 x e2.
A magnitude below the tolerance is degenerate: the documented policy is to
fall back to the Cartesian basis for that cell.  The degeneracy test compares
squared magnitudes so it stays rational; sqrtA abstracts the square root used
for the normalisations (never invoked on the degenerate branch). -/
def localMagneticBasis (sqrtA : ℚ → ℚ) (B : Vec3) : Basis3 :=
  if normSq B < fieldTolerance * fieldTolerance then idBasis
  else
    let e1 := Vec3.smul (1 / sqrtA (normSq B)) B
    let r : Vec3 :=
      if |e1.x| ≤ |e1.y| ∧ |e1.x| ≤ |e1.z| then ⟨1, 0, 0⟩
      else if |e1.y| ≤ |e1.z| then ⟨0, 1, 0⟩ else ⟨0, 0, 1⟩
    let w := Vec3.sub r (Vec3.smul (Vec3.dot r e1) e1)
    let e2 := Vec3.smul (1 / sqrtA (normSq w)) w
    { e1 := e1, e2 := e2, e3 := Vec3.cross e1 e2 }

/-- Modelled from the spec: basisTransform is declared in the header
(line 22) but its body lives outside the given sources.  Spec 4.3:
v_lab = v1 * e1 + v2 * e2 + v3 * e3. -/
def basisTransform (basis : Basis3) (vec : Vec3) : Vec3 :=
  Vec3.add (Vec3.add (Vec3.smul vec.x basis.e1) (Vec3.smul vec.y basis.e2))
    (Vec3.smul vec.z basis.e3)

/-- Particle<1> as assembled by loadParticles1D_ (lines 151-156): weight,
charge, one-component iCell (int32 cast of ix), one-component delta (float),
3-component velocity. -/
structure Particle1 where
  weight : ℚ
  charge : ℚ
  iCell : ℤ
  delta : ℚ
  v : Vec3
deriving DecidableEq

/-- the slice of the GridLayout interface consumed by loadParticles1D_:
mesh spacing, primal physical start/end index along X, the origin, and the
cell-centered coordinate of a cell index. -/
structure GridLayout1 where
  meshSizeX : ℚ
  ix0 : ℕ
  ix1 : ℕ
  origin : Point3
  cellCenter : ℕ → ℚ

/-- the immutable state a FluidParticleInitializer<.,.> stores for
dimension 1 (members, lines 358-365). -/
structure Config1 where
  density : ℚ → ℚ
  bulkVelocity : ℚ → Vec3
  thermalVelocity : ℚ → Vec3
  particleCharge : ℚ
  nbrParticlePerCell : ℕ
  basis : Basis
  magneticField : Option (ℚ → Vec3)

/-- the constructor (lines 40-54): plain member-by-member initialisation,
with no validation of any argument combination. -/
def FluidParticleInitializer1 (density : ℚ → ℚ) (bulkVelocity thermalVelocity : ℚ → Vec3)
    (particleCharge : ℚ) (nbrParticlesPerCell : ℕ) (basis : Basis)
    (magneticField : Option (ℚ → Vec3)) : Config1 :=
  { density := density, bulkVelocity := bulkVelocity, thermalVelocity := thermalVelocity
  , particleCharge := particleCharge, nbrParticlePerCell := nbrParticlesPerCell
  , basis := basis, magneticField := magneticField }

/-- the value behind the magneticField_ pointer; the source binds a reference
to it unconditionally (line 110) and reads through it only on the Magnetic
branch (line 136).  The null case is undefined behaviour in the source and is
recorded separately by loadParticles1D_derefs; here a null pointer denotes an
arbitrary fixed profile so that the (never taken in that case) Magnetic read
stays total. -/
def magFn1 (cfg : Config1) : ℚ → Vec3 := cfg.magneticField.getD (fun _ => Vec3.zero)

/-- the four pointer members the 1D loader dereferences when binding its
convenience references (lines 107-110); the list is unconditional: it does
not depend on the basis mode, and includes magneticField_ even when that
pointer is null (Cartesian-mode default).  2D and 3D do the same
(lines 192-195, 286-289). -/
inductive ProfilePtr where
  | density
  | bulkVelocity
  | thermalVelocity
  | magneticField
deriving DecidableEq

def loadParticles1D_derefs (_cfg : Config1) : List ProfilePtr :=
  [ProfilePtr.density, ProfilePtr.bulkVelocity, ProfilePtr.thermalVelocity,
   ProfilePtr.magneticField]

variable (u : ℕ → ℕ → ℚ) (xi : ℕ → ℕ → Vec3) (sqrtA : ℚ → ℚ)

/-- one iteration of the per-particle loop (lines 140-158) for cell ix with
the generator in state g: sample a velocity from the by-value generator copy
(line 142), rotate it when the basis is Magnetic (lines 144-147), draw the
sub-cell offset - the one draw that advances the caller's generator
(line 149) - and assemble the particle (lines 151-156).  The per-cell
quantities n, V, Vth, cellWeight and the local basis (lines 125-138) are pure
re-evaluations of profile functions, so computing them here per particle is
extensionally the source's once-per-cell computation. -/
def cellParticleAt (cfg : Config1) (layout : GridLayout1) (ix : ℕ) (g : Gen) : Particle1 :=
  let x := layout.cellCenter ix
  let n := cfg.density x
  let V := cfg.bulkVelocity x
  let Vth := cfg.thermalVelocity x
  let cellWeight := n * layout.meshSizeX / (cfg.nbrParticlePerCell : ℚ)
  let pv0 := maxwellianVelocity xi V Vth g
  let pv := if cfg.basis = Basis.Magnetic
            then basisTransform (localMagneticBasis sqrtA (magFn1 cfg x)) pv0
            else pv0
  { weight := cellWeight, charge := cfg.particleCharge, iCell := (ix : ℤ)
  , delta := u g.seed g.pos, v := pv }

/-- the ipart loop (lines 140-159): n more particles to emit for cell ix,
threading the generator (one position per emitted particle, consumed by its
sub-cell offset draw). -/
def cellLoop1D (cfg : Config1) (layout : GridLayout1) (ix : ℕ) :
    ℕ → Gen → List Particle1 × Gen
  | 0, g => ([], g)
  | n + 1, g =>
    let p := cellParticleAt u xi sqrtA cfg layout ix g
    let rest := cellLoop1D cfg layout ix n { seed := g.seed, pos := g.pos + 1 }
    (p :: rest.1, rest.2)

/-- all particles the 1D loader emits for cell ix (the body of the ix loop,
lines 112-160), together with the caller's generator state afterwards. -/
def cellParticles1D (cfg : Config1) (layout : GridLayout1) (ix : ℕ) (g : Gen) :
    List Particle1 × Gen :=
  cellLoop1D u xi sqrtA cfg layout ix cfg.nbrParticlePerCell g

/-- the cell loop (line 112): n more cells to process starting at index ix. -/
def cellsLoop1D (cfg : Config1) (layout : GridLayout1) :
    ℕ → ℕ → Gen → List Particle1 × Gen
  | _ix, 0, g => ([], g)
  | ix, n + 1, g =>
    let c := cellParticles1D u xi sqrtA cfg layout ix g
    let rest := cellsLoop1D cfg layout (ix + 1) n c.2
    (c.1 ++ rest.1, rest.2)

/-- loadParticles1D_ (lines 83-161).  It declares a std::random_device
(line 98) - modelled by the entropy argument - but seeds its engine with the
constant 1 (line 100), so the entropy never reaches the generator.  Cells ix0
to ix1-1 are processed in increasing order and every emitted particle is
appended after the container's existing contents (push_back, line 158). -/
def loadParticles1D_ (cfg : Config1) (layout : GridLayout1) (_entropy : ℕ)
    (particles : List Particle1) : List Particle1 :=
  particles ++
    (cellsLoop1D u xi sqrtA cfg layout layout.ix0 (layout.ix1 - layout.ix0)
      { seed := 1, pos := 0 }).1

/-- Particle<2> as assembled by loadParticles2D_ (lines 242-247). -/
structure Particle2 where
  weight : ℚ
  charge : ℚ
  iCellX : ℤ
  iCellY : ℤ
  deltaX : ℚ
  deltaY : ℚ
  v : Vec3
deriving DecidableEq

/-- the slice of the GridLayout interface consumed by loadParticles2D_;
cellCenteredCoordinates(ix, iy) is split into its two components. -/
structure GridLayout2 where
  meshSizeX : ℚ
  meshSizeY : ℚ
  ix0 : ℕ
  ix1 : ℕ
  iy0 : ℕ
  iy1 : ℕ
  origin : Point3
  cellCenterX : ℕ → ℕ → ℚ
  cellCenterY : ℕ → ℕ → ℚ

/-- the initializer state for dimension 2.  The density, bulk-velocity and
thermal-velocity profiles take the two cell-center coordinates (lines
214-216), but the stored magnetic-field profile is applied to three
arguments (x, y, origin.z) at line 225, so its modelled type takes three
coordinates even though the member is declared with the same
VectorFunction<dimension> type as bulkVelocity_. -/
structure Config2 where
  density : ℚ → ℚ → ℚ
  bulkVelocity : ℚ → ℚ → Vec3
  thermalVelocity : ℚ → ℚ → Vec3
  particleCharge : ℚ
  nbrParticlePerCell : ℕ
  basis : Basis
  magneticField : Option (ℚ → ℚ → ℚ → Vec3)

def magFn2 (cfg : Config2) : ℚ → ℚ → ℚ → Vec3 :=
  cfg.magneticField.getD (fun _ _ _ => Vec3.zero)

/-- which profile function a load routine evaluates, paired below with the
list of coordinates it passes. -/
inductive ProfileCall where
  | density
  | bulkVelocity
  | thermalVelocity
  | magneticField
deriving DecidableEq

/-- the profile evaluations loadParticles2D_ performs for the cell (ix, iy),
in source order, each with the coordinate list it passes: density,
bulkVelocity and thermalVelocity receive the two cell-center coordinates
(lines 209-216); on the Magnetic branch the magnetic-field profile receives
three coordinates, the third being origin.z rather than any cell-center
coordinate (line 225). -/
def cellProfileCalls2D (cfg : Config2) (layout : GridLayout2) (ix iy : ℕ) :
    List (ProfileCall × List ℚ) :=
  let x := layout.cellCenterX ix iy
  let y := layout.cellCenterY ix iy
  [(ProfileCall.density, [x, y]), (ProfileCall.bulkVelocity, [x, y]),
   (ProfileCall.thermalVelocity, [x, y])]
  ++ (if cfg.basis = Basis.Magnetic
      then [(ProfileCall.magneticField, [x, y, layout.origin.z])] else [])

/-- the profile evaluations loadParticles1D_ performs for cell ix: all four
receive the single cell-center coordinate (lines 121-127, 136). -/
def cellProfileCalls1D (cfg : Config1) (layout : GridLayout1) (ix : ℕ) :
    List (ProfileCall × List ℚ) :=
  let x := layout.cellCenter ix
  [(ProfileCall.density, [x]), (ProfileCall.bulkVelocity, [x]),
   (ProfileCall.thermalVelocity, [x])]
  ++ (if cfg.basis = Basis.Magnetic then [(ProfileCall.magneticField, [x])] else [])

/-- one iteration of the 2D per-particle loop (lines 230-250): velocity from
the by-value generator copy (line 232), optional rotation (lines 234-237),
then the two sub-cell offset draws randPosX, randPosY (lines 239-240) which
advance the caller's generator by two, and particle assembly (lines 242-247).
The magnetic-field evaluation (line 225) passes (x, y, origin.z). -/
def cellParticleAt2D (cfg : Config2) (layout : GridLayout2) (ix iy : ℕ) (g : Gen) :
    Particle2 :=
  let x := layout.cellCenterX ix iy
  let y := layout.cellCenterY ix iy
  let n := cfg.density x y
  let V := cfg.bulkVelocity x y
  let Vth := cfg.thermalVelocity x y
  let cellWeight := n * (layout.meshSizeX * layout.meshSizeY) / (cfg.nbrParticlePerCell : ℚ)
  let pv0 := maxwellianVelocity xi V Vth g
  let pv := if cfg.basis = Basis.Magnetic
            then basisTransform (localMagneticBasis sqrtA (magFn2 cfg x y layout.origin.z)) pv0
            else pv0
  { weight := cellWeight, charge := cfg.particleCharge
  , iCellX := (ix : ℤ), iCellY := (iy : ℤ)
  , deltaX := u g.seed g.pos, deltaY := u g.seed (g.pos + 1), v := pv }

/-- the 2D ipart loop (lines 230-250): n more particles for cell (ix, iy). -/
def cellLoop2D (cfg : Config2) (layout : GridLayout2) (ix iy : ℕ) :
    ℕ → Gen → List Particle2 × Gen
  | 0, g => ([], g)
  | n + 1, g =>
    let p := cellParticleAt2D u xi sqrtA cfg layout ix iy g
    let rest := cellLoop2D cfg layout ix iy n { seed := g.seed, pos := g.pos + 2 }
    (p :: rest.1, rest.2)

/-- the iy loop (line 200): n more cells in Y starting at iy, for column ix. -/
def yLoop2D (cfg : Config2) (layout : GridLayout2) (ix : ℕ) :
    ℕ → ℕ → Gen → List Particle2 × Gen
  | _iy, 0, g => ([], g)
  | iy, n + 1, g =>
    let c := cellLoop2D u xi sqrtA cfg layout ix iy cfg.nbrParticlePerCell g
    let rest := yLoop2D cfg layout ix (iy + 1) n c.2
    (c.1 ++ rest.1, rest.2)

/-- the ix loop (line 198): n more columns starting at ix, each running the
full iy range. -/
def xLoop2D (cfg : Config2) (layout : GridLayout2) :
    ℕ → ℕ → Gen → List Particle2 × Gen
  | _ix, 0, g => ([], g)
  | ix, n + 1, g =>
    let c := yLoop2D u xi sqrtA cfg layout ix layout.iy0 (layout.iy1 - layout.iy0) g
    let rest := xLoop2D cfg layout (ix + 1) n c.2
    (c.1 ++ rest.1, rest.2)

/-- loadParticles2D_ (lines 166-253).  Unlike the 1D routine, the engine is
seeded from the std::random_device (line 185): the entropy value becomes the
seed, so distinct entropy gives a distinct draw stream. -/
def loadParticles2D_ (cfg : Config2) (layout : GridLayout2) (entropy : ℕ)
    (particles : List Particle2) : List Particle2 :=
  particles ++
    (xLoop2D u xi sqrtA cfg layout layout.ix0 (layout.ix1 - layout.ix0)
      { seed := entropy, pos := 0 }).1

/-- Particle<3> as assembled by loadParticles3D_ (lines 340-346). -/
structure Particle3 where
  weight : ℚ
  charge : ℚ
  iCellX : ℤ
  iCellY : ℤ
  iCellZ : ℤ
  deltaX : ℚ
  deltaY : ℚ
  deltaZ : ℚ
  v : Vec3
deriving DecidableEq

/-- the slice of the GridLayout interface consumed by loadParticles3D_. -/
structure GridLayout3 where
  meshSizeX : ℚ
  meshSizeY : ℚ
  meshSizeZ : ℚ
  ix0 : ℕ
  ix1 : ℕ
  iy0 : ℕ
  iy1 : ℕ
  iz0 : ℕ
  iz1 : ℕ
  cellCenterX : ℕ → ℕ → ℕ → ℚ
  cellCenterY : ℕ → ℕ → ℕ → ℚ
  cellCenterZ : ℕ → ℕ → ℕ → ℚ

/-- the initializer state for dimension 3; all profiles, the magnetic field
included, take the three cell-center coordinates (lines 310-312, 323). -/
structure Config3 where
  density : ℚ → ℚ → ℚ → ℚ
  bulkVelocity : ℚ → ℚ → ℚ → Vec3
  thermalVelocity : ℚ → ℚ → ℚ → Vec3
  particleCharge : ℚ
  nbrParticlePerCell : ℕ
  basis : Basis
  magneticField : Option (ℚ → ℚ → ℚ → Vec3)

def magFn3 (cfg : Config3) : ℚ → ℚ → ℚ → Vec3 :=
  cfg.magneticField.getD (fun _ _ _ => Vec3.zero)

/-- one iteration of the 3D per-particle loop (lines 327-349): velocity from
the by-value generator copy (line 329), optional rotation (lines 331-334),
the three sub-cell offset draws (lines 336-337) advancing the caller's
generator by three, and particle assembly (lines 340-346). -/
def cellParticleAt3D (cfg : Config3) (layout : GridLayout3) (ix iy iz : ℕ) (g : Gen) :
    Particle3 :=
  let x := layout.cellCenterX ix iy iz
  let y := layout.cellCenterY ix iy iz
  let z := layout.cellCenterZ ix iy iz
  let n := cfg.density x y z
  let V := cfg.bulkVelocity x y z
  let Vth := cfg.thermalVelocity x y z
  let cellWeight := n * (layout.meshSizeX * layout.meshSizeY * layout.meshSizeZ)
                      / (cfg.nbrParticlePerCell : ℚ)
  let pv0 := maxwellianVelocity xi V Vth g
  let pv := if cfg.basis = Basis.Magnetic
            then basisTransform (localMagneticBasis sqrtA (magFn3 cfg x y z)) pv0
            else pv0
  { weight := cellWeight, charge := cfg.particleCharge
  , iCellX := (ix : ℤ), iCellY := (iy : ℤ), iCellZ := (iz : ℤ)
  , deltaX := u g.seed g.pos, deltaY := u g.seed (g.pos + 1)
  , deltaZ := u g.seed (g.pos + 2), v := pv }

/-- the 3D ipart loop (lines 327-349). -/
def cellLoop3D (cfg : Config3) (layout : GridLayout3) (ix iy iz : ℕ) :
    ℕ → Gen → List Particle3 × Gen
  | 0, g => ([], g)
  | n + 1, g =>
    let p := cellParticleAt3D u xi sqrtA cfg layout ix iy iz g
    let rest := cellLoop3D cfg layout ix iy iz n { seed := g.seed, pos := g.pos + 3 }
    (p :: rest.1, rest.2)

/-- the iz loop (line 295). -/
def zLoop3D (cfg : Config3) (layout : GridLayout3) (ix iy : ℕ) :
    ℕ → ℕ → Gen → List Particle3 × Gen
  | _iz, 0, g => ([], g)
  | iz, n + 1, g =>
    let c := cellLoop3D u xi sqrtA cfg layout ix iy iz cfg.nbrParticlePerCell g
    let rest := zLoop3D cfg layout ix iy (iz + 1) n c.2
    (c.1 ++ rest.1, rest.2)

/-- the iy loop (line 293). -/
def yLoop3D (cfg : Config3) (layout : GridLayout3) (ix : ℕ) :
    ℕ → ℕ → Gen → List Particle3 × Gen
  | _iy, 0, g => ([], g)
  | iy, n + 1, g =>
    let c := zLoop3D u xi sqrtA cfg layout ix iy layout.iz0 (layout.iz1 - layout.iz0) g
    let rest := yLoop3D cfg layout ix (iy + 1) n c.2
    (c.1 ++ rest.1, rest.2)

/-- the ix loop (line 291). -/
def xLoop3D (cfg : Config3) (layout : GridLayout3) :
    ℕ → ℕ → Gen → List Particle3 × Gen
  | _ix, 0, g => ([], g)
  | ix, n + 1, g =>
    let c := yLoop3D u xi sqrtA cfg layout ix layout.iy0 (layout.iy1 - layout.iy0) g
    let rest := xLoop3D cfg layout (ix + 1) n c.2
    (c.1 ++ rest.1, rest.2)

/-- loadParticles3D_ (lines 258-353); like 2D, the engine is seeded from the
std::random_device (line 279). -/
def loadParticles3D_ (cfg : Config3) (layout : GridLayout3) (entropy : ℕ)
    (particles : List Particle3) : List Particle3 :=
  particles ++
    (xLoop3D u xi sqrtA cfg layout layout.ix0 (layout.ix1 - layout.ix0)
      { seed := entropy, pos := 0 }).1

/-- a uniform stream that always draws 0 (one concrete engine model). -/
def uZero : ℕ → ℕ → ℚ := fun _ _ => 0

/-- a uniform stream whose draws reveal the seed: an engine model on which
differently seeded generators produce different values. -/
def uFromSeed : ℕ → ℕ → ℚ := fun s _ => (s : ℚ)

/-- a deviate stream that always yields the zero deviate. -/
def xiZero : ℕ → ℕ → Vec3 := fun _ _ => Vec3.zero

/-- a concrete square-root approximation (its value is irrelevant to every
statement below that uses it). -/
def sqrtId : ℚ → ℚ := fun q => q

/-- a single-cell layout with unit spacing, cell 0 centered at 1/2. -/
def lyOne : GridLayout1 := { meshSizeX := 1, ix0 := 0, ix1 := 1
                           , origin := ⟨0, 0, 0⟩, cellCenter := fun _ => 1 / 2 }

/-- a benign configuration: density 3, 2 particles per cell, Cartesian. -/
def cfgW1 : Config1 :=
  { density := fun _ => 3, bulkVelocity := fun _ => Vec3.zero
  , thermalVelocity := fun _ => Vec3.zero, particleCharge := 1
  , nbrParticlePerCell := 2, basis := Basis.Cartesian, magneticField := none }

/-- a two-cell layout with spacing 2 for the weight-identity witness. -/
def lyW1 : GridLayout1 := { meshSizeX := 2, ix0 := 0, ix1 := 2
                          , origin := ⟨0, 0, 0⟩, cellCenter := fun ix => (ix : ℚ) + 1 / 2 }

/-- a configuration whose density profile is negative everywhere. -/
def cfgC2 : Config1 :=
  { density := fun _ => -1, bulkVelocity := fun _ => Vec3.zero
  , thermalVelocity := fun _ => Vec3.zero, particleCharge := 1
  , nbrParticlePerCell := 2, basis := Basis.Cartesian, magneticField := none }

/-- a concrete scalar profile for the construction counterexample. -/
def dOne : ℚ → ℚ := fun _ => 1

/-- a concrete vector profile for the construction counterexample. -/
def vZeroFn : ℚ → Vec3 := fun _ => Vec3.zero

/-- a Magnetic-basis configuration whose magnetic-field profile is the zero
field everywhere: every cell is degenerate. -/
def cfgC4 : Config1 :=
  { density := fun _ => 1, bulkVelocity := fun _ => ⟨1, 2, 3⟩
  , thermalVelocity := fun _ => ⟨1, 1, 1⟩, particleCharge := 1
  , nbrParticlePerCell := 2, basis := Basis.Magnetic
  , magneticField := some (fun _ => Vec3.zero) }

/-- the end-to-end scenario configuration: uniform density 10, bulk velocity
(1,0,0), zero thermal speed, 5 particles per cell, Cartesian basis, charge q. -/
def cfg5 (q : ℚ) : Config1 :=
  { density := fun _ => 10, bulkVelocity := fun _ => ⟨1, 0, 0⟩
  , thermalVelocity := fun _ => Vec3.zero, particleCharge := q
  , nbrParticlePerCell := 5, basis := Basis.Cartesian, magneticField := none }

/-- the end-to-end scenario layout: 4 physical cells with unit spacing, so
each cell volume is 1. -/
def ly5 : GridLayout1 := { meshSizeX := 1, ix0 := 0, ix1 := 4
                         , origin := ⟨0, 0, 0⟩, cellCenter := fun ix => (ix : ℚ) + 1 / 2 }

/-- the container contents after the end-to-end scenario load (starting from
an empty container). -/
def out5 (e : ℕ) (q : ℚ) : List Particle1 :=
  loadParticles1D_ u xi sqrtA (cfg5 q) ly5 e []

/-- a configuration with 0 particles per cell. -/
def cfgC6 : Config1 :=
  { density := fun _ => 10, bulkVelocity := fun _ => Vec3.zero
  , thermalVelocity := fun _ => Vec3.zero, particleCharge := 1
  , nbrParticlePerCell := 0, basis := Basis.Cartesian, magneticField := none }

/-- an arbitrary pre-existing particle, used as prior container contents. -/
def pPrior : Particle1 :=
  { weight := 7, charge := 1, iCell := 3, delta := 0, v := Vec3.zero }

/-- a 2D Magnetic configuration used to exhibit the magnetic-field call arity. -/
def cfg7 : Config2 :=
  { density := fun _ _ => 1, bulkVelocity := fun _ _ => Vec3.zero
  , thermalVelocity := fun _ _ => Vec3.zero, particleCharge := 1
  , nbrParticlePerCell := 1, basis := Basis.Magnetic
  , magneticField := some (fun _ _ _ => ⟨0, 0, 1⟩) }

/-- a single-cell 2D layout whose origin has z = 7 (so the third coordinate
passed to the magnetic-field profile is visibly no cell-center coordinate). -/
def ly7 : GridLayout2 :=
  { meshSizeX := 1, meshSizeY := 1, ix0 := 0, ix1 := 1, iy0 := 0, iy1 := 1
  , origin := ⟨0, 0, 7⟩, cellCenterX := fun _ _ => 1 / 2, cellCenterY := fun _ _ => 1 / 2 }

/-- a minimal 2D configuration for the seeding-policy statement. -/
def cfg8two : Config2 :=
  { density := fun _ _ => 1, bulkVelocity := fun _ _ => Vec3.zero
  , thermalVelocity := fun _ _ => Vec3.zero, particleCharge := 1
  , nbrParticlePerCell := 1, basis := Basis.Cartesian, magneticField := none }

def ly8two : GridLayout2 :=
  { meshSizeX := 1, meshSizeY := 1, ix0 := 0, ix1 := 1, iy0 := 0, iy1 := 1
  , origin := ⟨0, 0, 0⟩, cellCenterX := fun _ _ => 1 / 2, cellCenterY := fun _ _ => 1 / 2 }

/-- a minimal 3D configuration for the seeding-policy statement. -/
def cfg8three : Config3 :=
  { density := fun _ _ _ => 1, bulkVelocity := fun _ _ _ => Vec3.zero
  , thermalVelocity := fun _ _ _ => Vec3.zero, particleCharge := 1
  , nbrParticlePerCell := 1, basis := Basis.Cartesian, magneticField := none }

def ly8three : GridLayout3 :=
  { meshSizeX := 1, meshSizeY := 1, meshSizeZ := 1
  , ix0 := 0, ix1 := 1, iy0 := 0, iy1 := 1, iz0 := 0, iz1 := 1
  , cellCenterX := fun _ _ _ => 1 / 2, cellCenterY := fun _ _ _ => 1 / 2
  , cellCenterZ := fun _ _ _ => 1 / 2 }

/-- a Cartesian configuration with a null magnetic-field pointer - the legal
default of the constructor (line 45). -/
def cfgC10 : Config1 :=
  { density := fun _ => 1, bulkVelocity := fun _ => Vec3.zero
  , thermalVelocity := fun _ => Vec3.zero, particleCharge := 1
  , nbrParticlePerCell := 1, basis := Basis.Cartesian, magneticField := none }

/-- a zero thermal-speed vector degenerates the Maxwellian: the sample is the
bulk velocity itself, whatever the generator state. -/
theorem maxwellianVelocity_zeroVth (V : Vec3) (g : Gen) :
    maxwellianVelocity xi V Vec3.zero g = V := by
  cases V
  simp [maxwellianVelocity, Vec3.zero]

/-- transforming by the Cartesian basis is the identity. -/
theorem basisTransform_idBasis (v : Vec3) : basisTransform idBasis v = v := by
  cases v
  simp [basisTransform, idBasis, Vec3.add, Vec3.smul]

/-- a field of magnitude below the tolerance yields the Cartesian fallback. -/
theorem localMagneticBasis_degenerate (B : Vec3)
    (h : normSq B < fieldTolerance * fieldTolerance) :
    localMagneticBasis sqrtA B = idBasis := by
  unfold localMagneticBasis
  rw [if_pos h]

theorem cellParticleAt_weight (cfg : Config1) (layout : GridLayout1) (ix : ℕ) (g : Gen) :
    (cellParticleAt u xi sqrtA cfg layout ix g).weight
      = cfg.density (layout.cellCenter ix) * layout.meshSizeX
          / (cfg.nbrParticlePerCell : ℚ) := rfl

theorem cellParticleAt_charge (cfg : Config1) (layout : GridLayout1) (ix : ℕ) (g : Gen) :
    (cellParticleAt u xi sqrtA cfg layout ix g).charge = cfg.particleCharge := rfl

theorem cellParticleAt_iCell (cfg : Config1) (layout : GridLayout1) (ix : ℕ) (g : Gen) :
    (cellParticleAt u xi sqrtA cfg layout ix g).iCell = (ix : ℤ) := rfl

theorem cellParticleAt_delta (cfg : Config1) (layout : GridLayout1) (ix : ℕ) (g : Gen) :
    (cellParticleAt u xi sqrtA cfg layout ix g).delta = u g.seed g.pos := rfl

theorem cellParticleAt_v (cfg : Config1) (layout : GridLayout1) (ix : ℕ) (g : Gen) :
    (cellParticleAt u xi sqrtA cfg layout ix g).v
      = (if cfg.basis = Basis.Magnetic
         then basisTransform
                (localMagneticBasis sqrtA (magFn1 cfg (layout.cellCenter ix)))
                (maxwellianVelocity xi (cfg.bulkVelocity (layout.cellCenter ix))
                  (cfg.thermalVelocity (layout.cellCenter ix)) g)
         else maxwellianVelocity xi (cfg.bulkVelocity (layout.cellCenter ix))
                (cfg.thermalVelocity (layout.cellCenter ix)) g) := rfl

/-- normal form of the per-particle loop: the k-th particle of the cell is
assembled from generator state (seed, pos + k); the caller's generator
advances by exactly one position per emitted particle. -/
theorem cellLoop1D_eq (cfg : Config1) (layout : GridLayout1) (ix : ℕ) :
    ∀ (n : ℕ) (g : Gen),
      cellLoop1D u xi sqrtA cfg layout ix n g
        = ((List.range n).map
             (fun k => cellParticleAt u xi sqrtA cfg layout ix
                         { seed := g.seed, pos := g.pos + k }),
           { seed := g.seed, pos := g.pos + n }) := by
  intro n
  induction n with
  | zero => intro g; simp [cellLoop1D]
  | succ n ih =>
    intro g
    simp only [cellLoop1D, ih]
    simp [List.range_succ_eq_map, List.map_map, Function.comp,
          Nat.add_assoc, Nat.add_comm, Nat.add_left_comm]

/-- the per-cell generator advance and particle list in closed form. -/
theorem cellParticles1D_eq (cfg : Config1) (layout : GridLayout1) (ix : ℕ) (g : Gen) :
    cellParticles1D u xi sqrtA cfg layout ix g
      = ((List.range cfg.nbrParticlePerCell).map
           (fun k => cellParticleAt u xi sqrtA cfg layout ix
                       { seed := g.seed, pos := g.pos + k }),
         { seed := g.seed, pos := g.pos + cfg.nbrParticlePerCell }) := by
  unfold cellParticles1D
  exact cellLoop1D_eq u xi sqrtA cfg layout ix cfg.nbrParticlePerCell g

/-- every particle of a cell carries the same weight, the cell's total weight
divided by the particles-per-cell count. -/
theorem cellLoop1D_mem_weight (cfg : Config1) (layout : GridLayout1) (ix : ℕ)
    (n : ℕ) (g : Gen) :
    ∀ p ∈ (cellLoop1D u xi sqrtA cfg layout ix n g).1,
      p.weight = cfg.density (layout.cellCenter ix) * layout.meshSizeX
                   / (cfg.nbrParticlePerCell : ℚ) := by
  rw [cellLoop1D_eq]
  intro p hp
  rcases List.mem_map.mp hp with ⟨k, _, rfl⟩
  rfl

/-- the sum of the weights emitted for one cell, before dividing out n. -/
theorem cellLoop1D_sum_weight (cfg : Config1) (layout : GridLayout1) (ix : ℕ)
    (n : ℕ) (g : Gen) :
    (((cellLoop1D u xi sqrtA cfg layout ix n g).1).map Particle1.weight).sum
      = (n : ℚ) * (cfg.density (layout.cellCenter ix) * layout.meshSizeX
                     / (cfg.nbrParticlePerCell : ℚ)) := by
  induction n generalizing g with
  | zero => simp [cellLoop1D]
  | succ n ih =>
    simp only [cellLoop1D, List.map_cons, List.sum_cons, ih]
    rw [cellParticleAt_weight]
    push_cast
    ring

/-- the number of particles emitted for one cell. -/
theorem cellLoop1D_length (cfg : Config1) (layout : GridLayout1) (ix : ℕ)
    (n : ℕ) (g : Gen) :
    ((cellLoop1D u xi sqrtA cfg layout ix n g).1).length = n := by
  rw [cellLoop1D_eq]
  simp

/-- how many of a cell's particles carry a given cell index: all of them when
the index is the cell's own, none otherwise. -/
theorem cellLoop1D_countP (cfg : Config1) (layout : GridLayout1) (ix : ℕ) (c : ℤ)
    (n : ℕ) (g : Gen) :
    ((cellLoop1D u xi sqrtA cfg layout ix n g).1).countP
        (fun p => decide (p.iCell = c))
      = if (ix : ℤ) = c then n else 0 := by
  induction n generalizing g with
  | zero => simp [cellLoop1D]
  | succ n ih =>
    simp only [cellLoop1D, List.countP_cons, ih, cellParticleAt_iCell]
    by_cases h : (ix : ℤ) = c
    · simp [h]
    · simp [h]

/-- total particle count over a run of cells. -/
theorem cellsLoop1D_length (cfg : Config1) (layout : GridLayout1) :
    ∀ (n ix : ℕ) (g : Gen),
      ((cellsLoop1D u xi sqrtA cfg layout ix n g).1).length
        = n * cfg.nbrParticlePerCell := by
  intro n
  induction n with
  | zero => intro ix g; simp [cellsLoop1D]
  | succ n ih =>
    intro ix g
    simp only [cellsLoop1D, List.length_append, ih]
    rw [cellParticles1D_eq]
    simp [Nat.succ_mul, Nat.add_comm]

/-- every particle of a run of cells is assembled by cellParticleAt for some
cell of the run. -/
theorem cellsLoop1D_mem (cfg : Config1) (layout : GridLayout1) :
    ∀ (n ix : ℕ) (g : Gen), ∀ p ∈ (cellsLoop1D u xi sqrtA cfg layout ix n g).1,
      ∃ j, j < n ∧ ∃ g', p = cellParticleAt u xi sqrtA cfg layout (ix + j) g' := by
  intro n
  induction n with
  | zero => intro ix g p hp; simp [cellsLoop1D] at hp
  | succ n ih =>
    intro ix g p hp
    simp only [cellsLoop1D, List.mem_append] at hp
    rcases hp with hp | hp
    · rw [cellParticles1D_eq] at hp
      rcases List.mem_map.mp hp with ⟨k, _, rfl⟩
      exact ⟨0, Nat.succ_pos n, _, rfl⟩
    · rcases ih (ix + 1) _ p hp with ⟨j, hj, g', rfl⟩
      exact ⟨j + 1, Nat.succ_lt_succ hj, g', by rw [Nat.add_assoc, Nat.add_comm 1 j]⟩

/-- cell-index census over a run of cells: an index inside the run is carried
by exactly particles-per-cell many particles, an index outside by none. -/
theorem cellsLoop1D_countP (cfg : Config1) (layout : GridLayout1) (c : ℤ) :
    ∀ (n ix : ℕ) (g : Gen),
      ((cellsLoop1D u xi sqrtA cfg layout ix n g).1).countP
          (fun p => decide (p.iCell = c))
        = if (ix : ℤ) ≤ c ∧ c < (ix : ℤ) + n then cfg.nbrParticlePerCell else 0 := by
  intro n
  induction n with
  | zero =>
    intro ix g
    rw [if_neg (by push_cast; omega)]
    rfl
  | succ n ih =>
    intro ix g
    simp only [cellsLoop1D, List.countP_append, ih]
    unfold cellParticles1D
    rw [cellLoop1D_countP]
    push_cast
    split_ifs <;> omega

/-- with 0 particles per cell, a run of cells emits nothing and leaves the
generator untouched. -/
theorem cellsLoop1D_ppcZero (cfg : Config1) (layout : GridLayout1)
    (h0 : cfg.nbrParticlePerCell = 0) :
    ∀ (n ix : ℕ) (g : Gen), cellsLoop1D u xi sqrtA cfg layout ix n g = ([], g) := by
  intro n
  induction n with
  | zero => intro ix g; rfl
  | succ n ih =>
    intro ix g
    simp only [cellsLoop1D, cellParticles1D_eq, h0]
    simp [ih]

/-- two configurations whose per-particle assembly agrees cell-wise and whose
particles-per-cell agree run their per-cell loops identically. -/
theorem cellLoop1D_congr (cfg cfg' : Config1) (layout : GridLayout1) (ix : ℕ)
    (hp : ∀ g : Gen, cellParticleAt u xi sqrtA cfg layout ix g
                       = cellParticleAt u xi sqrtA cfg' layout ix g) :
    ∀ (n : ℕ) (g : Gen),
      cellLoop1D u xi sqrtA cfg layout ix n g
        = cellLoop1D u xi sqrtA cfg' layout ix n g := by
  intro n
  induction n with
  | zero => intro g; rfl
  | succ n ih =>
    intro g
    simp only [cellLoop1D, hp g, ih]

/-- C1: for every cell processed with N > 0 particles per cell, each of the
N particles emitted for that cell carries weight
density(cellCenter) * cellVolume / N (the 1D cell volume is the mesh
spacing), and those N equal weights sum to exactly
density(cellCenter) * cellVolume, independent of N. -/
theorem claim_C1_cell_weight_identity (cfg : Config1) (layout : GridLayout1)
    (ix : ℕ) (g : Gen) (hN : 0 < cfg.nbrParticlePerCell) :
    (∀ p ∈ (cellParticles1D u xi sqrtA cfg layout ix g).1,
        p.weight = cfg.density (layout.cellCenter ix) * layout.meshSizeX
                     / (cfg.nbrParticlePerCell : ℚ))
    ∧ (((cellParticles1D u xi sqrtA cfg layout ix g).1).map Particle1.weight).sum
        = cfg.density (layout.cellCenter ix) * layout.meshSizeX := by
  constructor
  · exact cellLoop1D_mem_weight u xi sqrtA cfg layout ix cfg.nbrParticlePerCell g
  · unfold cellParticles1D
    rw [cellLoop1D_sum_weight]
    rw [mul_comm]
    exact div_mul_cancel₀ _ (Nat.cast_ne_zero.mpr hN.ne')

/-- concrete instance of the weight identity: density 3, spacing 2, two
particles per cell, so the cell's weights sum to 6. -/
theorem claim_C1_witness :
    0 < cfgW1.nbrParticlePerCell
    ∧ (((cellParticles1D uZero xiZero sqrtId cfgW1 lyW1 0
          { seed := 1, pos := 0 }).1).map Particle1.weight).sum
        = cfgW1.density (lyW1.cellCenter 0) * lyW1.meshSizeX :=
  ⟨by decide,
   (claim_C1_cell_weight_identity uZero xiZero sqrtId cfgW1 lyW1 0
     { seed := 1, pos := 0 } (by decide)).2⟩

/-- C2 as stated is false: with a density profile that is negative at the
sampled cell center, loadParticles1D_ neither aborts nor skips the offending
cell - it emits the full complement of particles for it (here 2 particles
for cell 0, each with negative weight). -/
theorem claim_C2_counterexample :
    (loadParticles1D_ uZero xiZero sqrtId cfgC2 lyOne 0 []).length = 2
    ∧ (loadParticles1D_ uZero xiZero sqrtId cfgC2 lyOne 0 []).countP
        (fun p => decide (p.iCell = 0)) = 2
    ∧ ((loadParticles1D_ uZero xiZero sqrtId cfgC2 lyOne 0 []).map Particle1.weight)
        = [-1/2, -1/2] := by
  refine ⟨by decide, by decide, ?_⟩
  simp [loadParticles1D_, cellsLoop1D, cellParticles1D, cellLoop1D, cellParticleAt,
        cfgC2, lyOne, uZero, xiZero, maxwellianVelocity]

/-- C2 amended: the loader performs no validity check on the density.  A cell
whose density evaluates negative yields its full complement of
particles-per-cell particles, each carrying the negative weight
density * cellVolume / N; no error is raised. -/
theorem claim_C2_amended (cfg : Config1) (layout : GridLayout1) (ix : ℕ) (g : Gen)
    (hneg : cfg.density (layout.cellCenter ix) < 0)
    (hdx : 0 < layout.meshSizeX) (hN : 0 < cfg.nbrParticlePerCell) :
    ((cellParticles1D u xi sqrtA cfg layout ix g).1).length = cfg.nbrParticlePerCell
    ∧ ∀ p ∈ (cellParticles1D u xi sqrtA cfg layout ix g).1, p.weight < 0 := by
  constructor
  · exact cellLoop1D_length u xi sqrtA cfg layout ix cfg.nbrParticlePerCell g
  · intro p hp
    rw [cellLoop1D_mem_weight u xi sqrtA cfg layout ix cfg.nbrParticlePerCell g p hp]
    apply div_neg_of_neg_of_pos
    · exact mul_neg_of_neg_of_pos hneg hdx
    · exact_mod_cast hN

/-- concrete instance of the amended C2: density -1 at the cell center still
produces both requested particles. -/
theorem claim_C2_witness :
    cfgC2.density (lyOne.cellCenter 0) < 0
    ∧ ((cellParticles1D uZero xiZero sqrtId cfgC2 lyOne 0
          { seed := 1, pos := 0 }).1).length = cfgC2.nbrParticlePerCell :=
  ⟨by norm_num [cfgC2, lyOne],
   (claim_C2_amended uZero xiZero sqrtId cfgC2 lyOne 0 { seed := 1, pos := 0 }
     (by norm_num [cfgC2, lyOne]) (by norm_num [lyOne]) (by decide)).1⟩

/-- C3 as stated is false: constructing with Magnetic basis and a null
magnetic-field profile succeeds - the constructed object exists, stores the
Magnetic basis and the null profile, and no failure occurs at construction. -/
theorem claim_C3_counterexample :
    (FluidParticleInitializer1 dOne vZeroFn vZeroFn 1 5 Basis.Magnetic none).basis
        = Basis.Magnetic
    ∧ (FluidParticleInitializer1 dOne vZeroFn vZeroFn 1 5 Basis.Magnetic none).magneticField
        = none :=
  ⟨rfl, rfl⟩

/-- C3 amended: the constructor validates nothing - with Magnetic basis and a
null magnetic-field profile it simply stores its arguments, and the
misconfiguration is only ever reached at load time, where the loader
dereferences the null pointer while binding its convenience references. -/
theorem claim_C3_amended (density : ℚ → ℚ) (bulkV thermalV : ℚ → Vec3)
    (charge : ℚ) (ppc : ℕ) :
    FluidParticleInitializer1 density bulkV thermalV charge ppc Basis.Magnetic none
      = { density := density, bulkVelocity := bulkV, thermalVelocity := thermalV
        , particleCharge := charge, nbrParticlePerCell := ppc
        , basis := Basis.Magnetic, magneticField := none }
    ∧ ProfilePtr.magneticField ∈ loadParticles1D_derefs
        (FluidParticleInitializer1 density bulkV thermalV charge ppc Basis.Magnetic none) :=
  ⟨rfl, by simp [loadParticles1D_derefs]⟩

/-- C4: in Magnetic basis mode, a cell whose magnetic-field magnitude at the
cell center is below the tolerance is loaded exactly as it would be under the
Cartesian basis - the fallback is per cell and non-fatal, and every emitted
value is the same well-defined number the Cartesian path produces (in this
rational model the degenerate normalisation is never evaluated, which is the
model's rendering of NaN-freedom). -/
theorem claim_C4_degenerate_fallback (cfg : Config1) (layout : GridLayout1)
    (ix : ℕ) (g : Gen)
    (hdeg : normSq (magFn1 cfg (layout.cellCenter ix))
              < fieldTolerance * fieldTolerance) :
    cellParticles1D u xi sqrtA cfg layout ix g
      = cellParticles1D u xi sqrtA { cfg with basis := Basis.Cartesian } layout ix g := by
  unfold cellParticles1D
  refine cellLoop1D_congr u xi sqrtA cfg _ layout ix (fun g' => ?_)
    cfg.nbrParticlePerCell g
  by_cases hb : cfg.basis = Basis.Magnetic
  · have hid : localMagneticBasis sqrtA (magFn1 cfg (layout.cellCenter ix)) = idBasis :=
      localMagneticBasis_degenerate sqrtA _ hdeg
    simp [cellParticleAt, hb, hid, basisTransform_idBasis]
  · simp [cellParticleAt, hb]

/-- concrete instance of the fallback: a zero magnetic field everywhere is
degenerate at the cell center, and the Magnetic-mode load of that cell equals
the Cartesian-mode load. -/
theorem claim_C4_witness :
    normSq (magFn1 cfgC4 (lyOne.cellCenter 0)) < fieldTolerance * fieldTolerance
    ∧ cellParticles1D uZero xiZero sqrtId cfgC4 lyOne 0 { seed := 1, pos := 0 }
        = cellParticles1D uZero xiZero sqrtId { cfgC4 with basis := Basis.Cartesian }
            lyOne 0 { seed := 1, pos := 0 } :=
  ⟨by norm_num [magFn1, cfgC4, normSq, Vec3.zero, fieldTolerance, lyOne],
   claim_C4_degenerate_fallback uZero xiZero sqrtId cfgC4 lyOne 0 { seed := 1, pos := 0 }
     (by norm_num [magFn1, cfgC4, normSq, Vec3.zero, fieldTolerance, lyOne])⟩

/-- C5: the end-to-end scenario - 4 physical cells, uniform density 10,
bulk velocity (1,0,0), zero thermal speed, 5 particles per cell, Cartesian
basis, unit cell volume - appends exactly 20 particles, each with weight 2,
the configured charge and velocity (1,0,0), and each of the 4 cell indices is
carried by exactly 5 particles; this holds for every engine stream, deviate
stream and entropy value. -/
theorem claim_C5_end_to_end (e : ℕ) (q : ℚ) :
    (out5 u xi sqrtA e q).length = 20
    ∧ (∀ p ∈ out5 u xi sqrtA e q, p.weight = 2 ∧ p.charge = q ∧ p.v = ⟨1, 0, 0⟩)
    ∧ (out5 u xi sqrtA e q).countP (fun p => decide (p.iCell = 0)) = 5
    ∧ (out5 u xi sqrtA e q).countP (fun p => decide (p.iCell = 1)) = 5
    ∧ (out5 u xi sqrtA e q).countP (fun p => decide (p.iCell = 2)) = 5
    ∧ (out5 u xi sqrtA e q).countP (fun p => decide (p.iCell = 3)) = 5 := by
  unfold out5 loadParticles1D_
  simp only [List.nil_append]
  refine ⟨?_, ?_, ?_, ?_, ?_, ?_⟩
  · rw [cellsLoop1D_length]
    rfl
  · intro p hp
    rcases cellsLoop1D_mem u xi sqrtA (cfg5 q) ly5 (ly5.ix1 - ly5.ix0) ly5.ix0
      { seed := 1, pos := 0 } p hp with ⟨j, hj, g', rfl⟩
    refine ⟨?_, rfl, ?_⟩
    · rw [cellParticleAt_weight]
      norm_num [cfg5, ly5]
    · rw [cellParticleAt_v]
      simp [cfg5, maxwellianVelocity_zeroVth]
  · rw [cellsLoop1D_countP]
    norm_num [cfg5, ly5]
  · rw [cellsLoop1D_countP]
    norm_num [cfg5, ly5]
  · rw [cellsLoop1D_countP]
    norm_num [cfg5, ly5]
  · rw [cellsLoop1D_countP]
    norm_num [cfg5, ly5]

/-- concrete instance of the scenario with charge 3 and an all-zero engine
stream: 20 particles, and the first one is fully determined. -/
theorem claim_C5_witness :
    (out5 uZero xiZero sqrtId 0 3).length = 20
    ∧ ({ weight := 2, charge := 3, iCell := 0, delta := 0, v := ⟨1, 0, 0⟩ } : Particle1)
        ∈ out5 uZero xiZero sqrtId 0 3
    ∧ (({ weight := 2, charge := 3, iCell := 0, delta := 0, v := ⟨1, 0, 0⟩ } : Particle1).weight = 2
       ∧ ({ weight := 2, charge := 3, iCell := 0, delta := 0, v := ⟨1, 0, 0⟩ } : Particle1).charge = 3
       ∧ ({ weight := 2, charge := 3, iCell := 0, delta := 0, v := ⟨1, 0, 0⟩ } : Particle1).v = ⟨1, 0, 0⟩) := by
  refine ⟨(claim_C5_end_to_end uZero xiZero sqrtId 0 3).1, ?_, ?_⟩
  · norm_num [out5, loadParticles1D_, cellsLoop1D, cellParticles1D, cellLoop1D,
              cellParticleAt, cfg5, ly5, uZero, xiZero, maxwellianVelocity, Vec3.zero]
    rfl
  · exact (claim_C5_end_to_end uZero xiZero sqrtId 0 3).2.1 _ (by
      norm_num [out5, loadParticles1D_, cellsLoop1D, cellParticles1D, cellLoop1D,
                cellParticleAt, cfg5, ly5, uZero, xiZero, maxwellianVelocity, Vec3.zero]
      rfl)

/-- C6: with 0 particles per cell every cell yields no particles, no error is
raised, and the container is returned exactly as it was. -/
theorem claim_C6_zero_ppc (cfg : Config1) (layout : GridLayout1) (e : ℕ)
    (init : List Particle1) (h0 : cfg.nbrParticlePerCell = 0) :
    (∀ (ix : ℕ) (g : Gen), (cellParticles1D u xi sqrtA cfg layout ix g).1 = [])
    ∧ loadParticles1D_ u xi sqrtA cfg layout e init = init := by
  constructor
  · intro ix g
    rw [cellParticles1D_eq]
    simp [h0]
  · unfold loadParticles1D_
    rw [cellsLoop1D_ppcZero u xi sqrtA cfg layout h0]
    simp

/-- concrete instance: 0 particles per cell leaves the prior container
contents untouched. -/
theorem claim_C6_witness :
    cfgC6.nbrParticlePerCell = 0
    ∧ loadParticles1D_ uZero xiZero sqrtId cfgC6 lyOne 0 [pPrior] = [pPrior] :=
  ⟨rfl, (claim_C6_zero_ppc uZero xiZero sqrtId cfgC6 lyOne 0 [pPrior] rfl).2⟩

/-- C7 fails on the 2D branch: at cell (0,0) of a Magnetic-mode 2D load the
magnetic-field profile is evaluated with THREE coordinates (x, y, origin.z) -
not the two of the simulation's dimensionality - and the third is the origin
z (here 7), which is no cell-center coordinate; the scalar profiles of the
same cell do receive the two cell-center coordinates. -/
theorem claim_C7_arity_2d :
    (ProfileCall.magneticField, [(1 : ℚ)/2, 1/2, 7]) ∈ cellProfileCalls2D cfg7 ly7 0 0
    ∧ (ProfileCall.density, [(1 : ℚ)/2, 1/2]) ∈ cellProfileCalls2D cfg7 ly7 0 0
    ∧ [(1 : ℚ)/2, 1/2, 7].length = 3 := by
  refine ⟨?_, ?_, rfl⟩
  · simp [cellProfileCalls2D, cfg7, ly7]
  · simp [cellProfileCalls2D, cfg7, ly7]

/-- C8: the 1D loader seeds its engine with the constant 1, so its output
does not depend on the entropy at all; the 2D and 3D loaders seed from the
random device, and there are runs differing only in entropy whose outputs
differ. -/
theorem claim_C8_seeding_policy :
    (∀ (cfg : Config1) (layout : GridLayout1) (e₁ e₂ : ℕ) (init : List Particle1),
        loadParticles1D_ u xi sqrtA cfg layout e₁ init
          = loadParticles1D_ u xi sqrtA cfg layout e₂ init)
    ∧ (∃ e₁ e₂ : ℕ, loadParticles2D_ uFromSeed xiZero sqrtId cfg8two ly8two e₁ []
          ≠ loadParticles2D_ uFromSeed xiZero sqrtId cfg8two ly8two e₂ [])
    ∧ (∃ e₁ e₂ : ℕ, loadParticles3D_ uFromSeed xiZero sqrtId cfg8three ly8three e₁ []
          ≠ loadParticles3D_ uFromSeed xiZero sqrtId cfg8three ly8three e₂ []) := by
  refine ⟨fun cfg layout e₁ e₂ init => rfl, ⟨0, 1, ?_⟩, ⟨0, 1, ?_⟩⟩
  · norm_num [loadParticles2D_, xLoop2D, yLoop2D, cellLoop2D, cellParticleAt2D,
              cfg8two, ly8two, uFromSeed, xiZero, maxwellianVelocity]
  · norm_num [loadParticles3D_, xLoop3D, yLoop3D, zLoop3D, cellLoop3D, cellParticleAt3D,
              cfg8three, ly8three, uFromSeed, xiZero, maxwellianVelocity]

/-- C9: inside a cell the caller's generator advances by exactly one position
per emitted particle - the position consumed by that particle's sub-cell
offset draw - and the k-th particle is assembled from generator state
(seed, pos + k): its velocity is computed by maxwellianVelocity from that
state received by value (maxwellianVelocity returns no generator, so velocity
sampling never advances the caller's stream). -/
theorem claim_C9_generator_frame (cfg : Config1) (layout : GridLayout1)
    (ix : ℕ) (g : Gen) :
    (cellParticles1D u xi sqrtA cfg layout ix g).2
        = { seed := g.seed
          , pos := g.pos + ((cellParticles1D u xi sqrtA cfg layout ix g).1).length }
    ∧ (cellParticles1D u xi sqrtA cfg layout ix g).1
        = (List.range cfg.nbrParticlePerCell).map
            (fun k => cellParticleAt u xi sqrtA cfg layout ix
                        { seed := g.seed, pos := g.pos + k }) := by
  rw [cellParticles1D_eq]
  simp

/-- C10 fails: the loader binds references through all four profile pointers
unconditionally at entry (lines 107-110), so a Cartesian-mode call with a
null magnetic-field pointer still dereferences that pointer. -/
theorem claim_C10_magnetic_deref :
    cfgC10.basis = Basis.Cartesian
    ∧ cfgC10.magneticField = none
    ∧ ProfilePtr.magneticField ∈ loadParticles1D_derefs cfgC10 :=
  ⟨rfl, rfl, by simp [loadParticles1D_derefs]⟩

end PHARE
